import Mathlib

/- Shallow embedding of the rust-chip8 interpreter core.

   Sources embedded:
   - src/collections.rs   : the bounded circular Stack
   - src/screen.rs        : the Screen framebuffer
   - src/memory/memory.rs : the Memory struct (engine state, called Chip8 here)
     with its fetch and execute methods and the per-opcode handlers.

   Modelling conventions:
   - Machine bytes (u8) and words are Nat values; wrapping arithmetic is
     written with an explicit mod 256, exactly where the Rust code uses
     wrapping_add or overflowing_add.  Theorems that quantify over register
     contents carry the u8 invariant (value below 256) as a hypothesis.
   - The register file V and the byte array memory are total functions
     Nat to Nat; the Rust arrays have 16 and 4096 cells and every access
     the claims exercise is within those bounds (register indices are
     decoded nibbles, and the draw claims carry in-range hypotheses).
   - The framebuffer pixel grid is a total function, pixels y x standing
     for the Rust pixels[y][x]; coordinates with x below 64 and y below 32
     are the real cells.  Draw theorems carry the in-range hypotheses of
     the claims, under which the Rust Vec indexing cannot panic.
   - Fallible operations are Option valued: Vec indexing out of bounds in
     the Stack (a Rust panic) and the Option unwrap in the return opcode
     yield none; execute therefore returns Option Chip8, with none meaning
     the cycle panics. -/

namespace RustChip8

/-- Bounded circular stack from src/collections.rs.  data models the
    Vec of Option slots and cap its capacity (Vec with_capacity; pushes
    never let the length exceed cap, so the capacity stays fixed). -/
structure Stack where
  tail : Nat
  data : List (Option Nat)
  cap : Nat
deriving DecidableEq

def Stack.new (size : Nat) : Stack :=
  { tail := 0, data := [], cap := size }

def Stack.is_full (s : Stack) : Bool :=
  (s.tail == s.data.length) && (decide (s.tail < s.cap))

/-- push_element from src/collections.rs.  none models the
    index-out-of-bounds panic of data[tail] in the else branch. -/
def Stack.push_element (s : Stack) (e : Nat) : Option (List (Option Nat)) :=
  if s.is_full then some (s.data ++ [some e])
  else if s.tail < s.data.length then some (s.data.set s.tail (some e))
  else none

def Stack.push (s : Stack) (e : Nat) : Option Stack :=
  match s.push_element e with
  | none => none
  | some d =>
      some { s with data := d,
                    tail := if s.tail + 1 < s.cap then s.tail + 1 else 0 }

/-- pop from src/collections.rs.  The outer Option models the indexing
    panic of data[prev]; the inner Option is the slot content that take
    extracts (leaving none in the slot). -/
def Stack.pop (s : Stack) : Option (Option Nat × Stack) :=
  let p := if s.tail = 0 then 0 else s.tail - 1
  if p < s.data.length then
    some (s.data.getD p none, { s with tail := p, data := s.data.set p none })
  else none

/-- Pushing a list of values in order, stopping at the first panic. -/
def Stack.pushAll (s : Stack) : List Nat → Option Stack
  | [] => some s
  | v :: vs =>
      match s.push v with
      | none => none
      | some t => t.pushAll vs

/-- Framebuffer from src/screen.rs.  pixels y x models pixels[y][x].
    The canvas field is presentation glue and outside the model. -/
structure Screen where
  width : Nat
  height : Nat
  pixels : Nat → Nat → Nat
  update_screen : Bool

/-- Screen::new with the WIDTH and HEIGHT constants of src/main.rs. -/
def Screen.new : Screen :=
  { width := 64, height := 32, pixels := fun _ _ => 0, update_screen := false }

def Screen.get_pixel (s : Screen) (x y : Nat) : Nat := s.pixels y x

def Screen.set_pixel (s : Screen) (x y v : Nat) : Screen :=
  { s with pixels := fun py px => if py = y ∧ px = x then v else s.pixels py px }

def Screen.update_pixel (s : Screen) (x y : Nat) : Screen :=
  s.set_pixel x y (Nat.xor (s.pixels y x) 1)

/-- Inner loop of Screen::clear: for y in 0..m set pixel (x, y) to 0. -/
def Screen.clearInner (x : Nat) (s : Screen) : Nat → Screen
  | 0 => s
  | m + 1 => (Screen.clearInner x s m).set_pixel x m 0

/-- Outer loop of Screen::clear: for x in 0..k run the inner loop to 32. -/
def Screen.clearOuter (s : Screen) : Nat → Screen
  | 0 => s
  | k + 1 => Screen.clearInner k (Screen.clearOuter s k) 32

/-- clear from src/screen.rs: the nested loops set every pixel with
    x below WIDTH = 64 and y below HEIGHT = 32 to 0.  The subsequent canvas
    drawing does not touch pixels or update_screen, so it is out of model.
    Note the Rust clear never writes the update_screen flag. -/
def Screen.clear (s : Screen) : Screen := s.clearOuter 64

/-- Engine state: the Memory struct of src/memory/memory.rs. -/
structure Chip8 where
  I : Nat
  pc : Nat
  opcode : Nat
  delay_timer : Nat
  stack : Stack
  V : Nat → Nat
  memory : Nat → Nat
  screen : Screen

def MEM_SIZE : Nat := 4096

def MEM_START : Nat := 0x200

/-- Memory::new from src/memory/memory.rs (with a fresh screen). -/
def Chip8.new : Chip8 :=
  { I := 0, pc := MEM_START, opcode := 0, delay_timer := 0,
    stack := Stack.new MEM_SIZE, V := fun _ => 0,
    memory := fun _ => 0, screen := Screen.new }

/-- Write register i, leaving the rest of the register file unchanged. -/
def setV (st : Chip8) (i v : Nat) : Chip8 :=
  { st with V := fun j => if j = i then v else st.V j }

/-- fetch from src/memory/memory.rs: big-endian combination of the two
    bytes at pc, then pc advances by 2. -/
def fetch (st : Chip8) : Chip8 :=
  { st with opcode := ((st.memory st.pc) <<< 8) ||| st.memory (st.pc + 1),
            pc := st.pc + 2 }

/-- Nibble 0 (highest) of the opcode. -/
def nib0 (op : Nat) : Nat := (op &&& 0xF000) >>> 12

/-- Nibble 1 of the opcode, the x register operand. -/
def nib1 (op : Nat) : Nat := (op &&& 0x0F00) >>> 8

/-- Nibble 2 of the opcode, the y register operand. -/
def nib2 (op : Nat) : Nat := (op &&& 0x00F0) >>> 4

/-- Nibble 3 (lowest) of the opcode, the small immediate n. -/
def nib3 (op : Nat) : Nat := op &&& 0x000F

/-- Low 12 bits of the opcode, the address operand. -/
def opNNN (op : Nat) : Nat := op &&& 0x0FFF

/-- Low 8 bits of the opcode, the immediate byte operand. -/
def opNN (op : Nat) : Nat := op &&& 0x00FF

/-- OPCODE 0x00E0. -/
def clear_screen (st : Chip8) : Chip8 :=
  { st with screen := st.screen.clear }

/-- OPCODE 0x00EE: pc := stack.pop().unwrap().  none models either the
    indexing panic inside pop or the unwrap panic on an empty slot. -/
def return_from_subroutine (st : Chip8) : Option Chip8 :=
  match st.stack.pop with
  | none => none
  | some (none, _) => none
  | some (some v, s2) => some { st with pc := v, stack := s2 }

/-- OPCODE 0x1NNN. -/
def jump (st : Chip8) (nnn : Nat) : Chip8 := { st with pc := nnn }

/-- OPCODE 0x2NNN: push pc, then jump. -/
def call_subroutine (st : Chip8) (nnn : Nat) : Option Chip8 :=
  match st.stack.push st.pc with
  | none => none
  | some s2 => some { st with stack := s2, pc := nnn }

/-- OPCODE 0x3XNN. -/
def skip_if_equal (st : Chip8) (x nn : Nat) : Chip8 :=
  if st.V x = nn then { st with pc := st.pc + 2 } else st

/-- OPCODE 0x4XNN. -/
def skip_if_not_equal (st : Chip8) (x nn : Nat) : Chip8 :=
  if st.V x ≠ nn then { st with pc := st.pc + 2 } else st

/-- Handler the code dispatches for every opcode with top nibble 0x5. -/
def skip_if_registers_equal (st : Chip8) (x y : Nat) : Chip8 :=
  if st.V x = st.V y then { st with pc := st.pc + 2 } else st

/-- Handler the code dispatches for every opcode with top nibble 0x9. -/
def skip_if_registers_not_equal (st : Chip8) (x y : Nat) : Chip8 :=
  if st.V x ≠ st.V y then { st with pc := st.pc + 2 } else st

/-- OPCODE 0x6XNN. -/
def set_register (st : Chip8) (x nn : Nat) : Chip8 := setV st x nn

/-- OPCODE 0x7XNN: nn.wrapping_add(V[x]) on u8, i.e. mod 256. -/
def add_immediate (st : Chip8) (x nn : Nat) : Chip8 :=
  setV st x ((nn + st.V x) % 256)

/-- OPCODE 0xANNN. -/
def set_index (st : Chip8) (nnn : Nat) : Chip8 := { st with I := nnn }

/-- OPCODE 0x8XY0. -/
def set_vx_vy (st : Chip8) (x y : Nat) : Chip8 := setV st x (st.V y)

/-- OPCODE 0x8XY1. -/
def binary_or (st : Chip8) (x y : Nat) : Chip8 :=
  setV st x ((st.V x) ||| (st.V y))

/-- OPCODE 0x8XY2. -/
def binary_and (st : Chip8) (x y : Nat) : Chip8 :=
  setV st x ((st.V x) &&& (st.V y))

/-- OPCODE 0x8XY3. -/
def logical_xor (st : Chip8) (x y : Nat) : Chip8 :=
  setV st x (Nat.xor (st.V x) (st.V y))

/-- OPCODE 0x8XY4: overflowing_add on u8.  V[x] gets the truncated sum
    first, then V[0xF] gets the overflow flag (the order matters when
    x = 0xF). -/
def add_registers (st : Chip8) (x y : Nat) : Chip8 :=
  let result := (st.V x + st.V y) % 256
  let st1 := setV st x result
  if 256 ≤ st.V x + st.V y then setV st1 0xF 1 else setV st1 0xF 0

/-- Test of sprite_data & (0x80 >> x_val) != 0: bit xv of the row byte,
    counted from the most significant bit. -/
def spriteBit (sprite b : Nat) : Bool := (sprite &&& (0x80 >>> b)) != 0

/-- Body of the inner display loop for one bit position xv. -/
def drawBit (vx vy yv sprite : Nat) (s : Chip8) (xv : Nat) : Chip8 :=
  if spriteBit sprite xv then
    let xc := vx + xv
    let yc := vy + yv
    let s1 := if s.screen.get_pixel xc yc = 1 then setV s 0xF 1 else s
    { s1 with screen := s1.screen.update_pixel xc yc }
  else s

/-- Inner display loop: for x_val in 0..m process each sprite bit. -/
def drawRowAux (vx vy yv sprite : Nat) (s : Chip8) : Nat → Chip8
  | 0 => s
  | m + 1 => drawBit vx vy yv sprite (drawRowAux vx vy yv sprite s m) m

/-- One iteration of the outer display loop: read the row byte at I + yv
    from the current state, then run the 8 bit positions. -/
def drawRow (vx vy : Nat) (s : Chip8) (yv : Nat) : Chip8 :=
  drawRowAux vx vy yv (s.memory (s.I + yv)) s 8

/-- Outer display loop: for y_val in 0..k process each sprite row. -/
def displayRows (vx vy : Nat) (s : Chip8) : Nat → Chip8
  | 0 => s
  | r + 1 => drawRow vx vy (displayRows vx vy s r) r

/-- OPCODE 0xDXYN from src/memory/memory.rs. -/
def display (st : Chip8) (x y n : Nat) : Chip8 :=
  let vx := st.V x % 64
  let vy := st.V y % 32
  let st0 := setV st 0xF 0
  let st1 := displayRows vx vy st0 n
  { st1 with screen := { st1.screen with update_screen := true } }

/-- Decode and dispatch of execute from src/memory/memory.rs.  The Rust
    match on the four nibbles, whose patterns are pairwise disjoint, is
    rendered as a chain of conditionals in the same order.  Note the 0x5
    and 0x9 families match on the top nibble alone, and the final
    wildcard arm leaves the state untouched. -/
def execute (st : Chip8) : Option Chip8 :=
  let x := nib1 st.opcode
  let y := nib2 st.opcode
  let n := nib3 st.opcode
  let nnn := opNNN st.opcode
  let nn := opNN st.opcode
  if nib0 st.opcode = 0x0 ∧ nib1 st.opcode = 0x0 ∧ nib2 st.opcode = 0xE ∧ nib3 st.opcode = 0x0 then
    some (clear_screen st)
  else if nib0 st.opcode = 0x0 ∧ nib1 st.opcode = 0x0 ∧ nib2 st.opcode = 0xE ∧ nib3 st.opcode = 0xE then
    return_from_subroutine st
  else if nib0 st.opcode = 0x1 then some (jump st nnn)
  else if nib0 st.opcode = 0x2 then call_subroutine st nnn
  else if nib0 st.opcode = 0x3 then some (skip_if_equal st x nn)
  else if nib0 st.opcode = 0x4 then some (skip_if_not_equal st x nn)
  else if nib0 st.opcode = 0x5 then some (skip_if_registers_equal st x y)
  else if nib0 st.opcode = 0x9 then some (skip_if_registers_not_equal st x y)
  else if nib0 st.opcode = 0x6 then some (set_register st x nn)
  else if nib0 st.opcode = 0x7 then some (add_immediate st x nn)
  else if nib0 st.opcode = 0xA then some (set_index st nnn)
  else if nib0 st.opcode = 0xD then some (display st x y n)
  else if nib0 st.opcode = 0x8 ∧ nib3 st.opcode = 0x0 then some (set_vx_vy st x y)
  else if nib0 st.opcode = 0x8 ∧ nib3 st.opcode = 0x1 then some (binary_or st x y)
  else if nib0 st.opcode = 0x8 ∧ nib3 st.opcode = 0x2 then some (binary_and st x y)
  else if nib0 st.opcode = 0x8 ∧ nib3 st.opcode = 0x3 then some (logical_xor st x y)
  else if nib0 st.opcode = 0x8 ∧ nib3 st.opcode = 0x4 then some (add_registers st x y)
  else some st

/- Specification predicates used only in theorem statements: they name,
   over the original pixel grid, which cells a draw touches and whether
   it collides, mirroring the bit test of the code. -/

/-- Some bit b below m of the row byte is set and lands on column px. -/
def rowTouch (sprite vx px : Nat) : Nat → Bool
  | 0 => false
  | m + 1 => rowTouch sprite vx px m || (spriteBit sprite m && (px == vx + m))

/-- Some bit b below m of the row byte is set and its pixel reads 1. -/
def rowColl (pix : Nat → Nat → Nat) (sprite vx vy yv : Nat) : Nat → Bool
  | 0 => false
  | m + 1 => rowColl pix sprite vx vy yv m
      || (spriteBit sprite m && (pix (vy + yv) (vx + m) == 1))

/-- Some bit b below m of the row byte is set and its pixel reads 0. -/
def rowFree (pix : Nat → Nat → Nat) (sprite vx vy yv : Nat) : Nat → Bool
  | 0 => false
  | m + 1 => rowFree pix sprite vx vy yv m
      || (spriteBit sprite m && (pix (vy + yv) (vx + m) == 0))

/-- Some row r below k has a set bit landing on the cell (px, py). -/
def sprTouch (mem : Nat → Nat) (i vx vy px py : Nat) : Nat → Bool
  | 0 => false
  | r + 1 => sprTouch mem i vx vy px py r
      || ((py == vy + r) && rowTouch (mem (i + r)) vx px 8)

/-- Some row r below k has a set bit over a pixel reading 1. -/
def sprColl (pix : Nat → Nat → Nat) (mem : Nat → Nat) (i vx vy : Nat) : Nat → Bool
  | 0 => false
  | r + 1 => sprColl pix mem i vx vy r || rowColl pix (mem (i + r)) vx vy r 8

/-- Some row r below k has a set bit over a pixel reading 0. -/
def sprFree (pix : Nat → Nat → Nat) (mem : Nat → Nat) (i vx vy : Nat) : Nat → Bool
  | 0 => false
  | r + 1 => sprFree pix mem i vx vy r || rowFree pix (mem (i + r)) vx vy r 8

/-- Fields of the engine state a draw never touches. -/
def coreEq (a b : Chip8) : Prop :=
  a.pc = b.pc ∧ a.I = b.I ∧ a.opcode = b.opcode ∧
  a.delay_timer = b.delay_timer ∧ a.stack = b.stack ∧ a.memory = b.memory

/-- Screen fields other than the pixel grid. -/
def scrMetaEq (a b : Chip8) : Prop :=
  a.screen.width = b.screen.width ∧ a.screen.height = b.screen.height ∧
  a.screen.update_screen = b.screen.update_screen

/- ------------------------------------------------------------------ -/
/- Stack lemmas                                                        -/
/- ------------------------------------------------------------------ -/

/-- While the buffer is still filling (length below capacity), pushing a
    list of values appends them all, and the top pointer ends at the new
    length taken modulo the capacity. -/
lemma pushAll_fill (vs : List Nat) : ∀ (d : List (Option Nat)) (K : Nat),
    d.length < K → d.length + vs.length ≤ K →
    Stack.pushAll ⟨d.length, d, K⟩ vs =
      some ⟨(d.length + vs.length) % K, d ++ vs.map some, K⟩ := by
  induction vs with
  | nil =>
      intro d K h1 _
      simp [Stack.pushAll, Nat.mod_eq_of_lt h1]
  | cons v tl ih =>
      intro d K h1 hb
      have hpush : (Stack.mk d.length d K).push v =
          some ⟨if d.length + 1 < K then d.length + 1 else 0, d ++ [some v], K⟩ := by
        simp [Stack.push, Stack.push_element, Stack.is_full, h1]
      rw [Stack.pushAll, hpush]
      dsimp only
      by_cases h2 : d.length + 1 < K
      · rw [if_pos h2]
        have e1 : d.length + 1 = (d ++ [some v]).length := by simp
        rw [e1, ih (d ++ [some v]) K (by simpa using h2)
              (by simp at hb ⊢; omega)]
        have e2 : (d ++ [some v]).length + tl.length = d.length + (v :: tl).length := by
          simp; omega
        simp [e2]
        congr 1
        omega
      · rw [if_neg h2]
        have hK : d.length + 1 = K := by omega
        have htl : tl = [] := by
          have : tl.length = 0 := by simp at hb; omega
          exact List.length_eq_zero.mp this
        subst htl
        simp [Stack.pushAll, ← hK, Nat.mod_self]

/-- A push on a well-formed non-wrapped buffer succeeds and stores the
    value at the old top slot. -/
lemma push_succ (s : Stack) (e : Nat) (hwf : s.tail ≤ s.data.length)
    (hcap : s.tail < s.cap) :
    ∃ d, s.push e = some ⟨if s.tail + 1 < s.cap then s.tail + 1 else 0, d, s.cap⟩ ∧
      d.getD s.tail none = some e ∧ s.tail < d.length := by
  rcases Nat.lt_or_ge s.tail s.data.length with h | h
  · refine ⟨s.data.set s.tail (some e), ?_, ?_, ?_⟩
    · simp [Stack.push, Stack.push_element, Stack.is_full, Nat.ne_of_lt h, h]
    · rw [List.getD_eq_getElem?_getD]
      simp [List.getElem?_set_self, h]
    · simpa using h
  · have heq : s.tail = s.data.length := le_antisymm hwf h
    have hc2 : s.data.length < s.cap := heq ▸ hcap
    refine ⟨s.data ++ [some e], ?_, ?_, ?_⟩
    · simp [Stack.push, Stack.push_element, Stack.is_full, heq, hc2]
    · rw [heq, List.getD_eq_getElem?_getD, List.getElem?_concat_length]
      rfl
    · simp [heq]

/-- A pop with a nonzero top pointer decrements it and takes that slot. -/
lemma pop_succ_tail (s : Stack) (h0 : s.tail ≠ 0) (hlen : s.tail - 1 < s.data.length) :
    s.pop = some (s.data.getD (s.tail - 1) none,
      ⟨s.tail - 1, s.data.set (s.tail - 1) none, s.cap⟩) := by
  simp [Stack.pop, h0, hlen]

/- ------------------------------------------------------------------ -/
/- C4: pop with top pointer 0                                          -/
/- ------------------------------------------------------------------ -/

/-- Concrete fresh engine about to run a return: Memory::new with the
    fetched opcode 0x00EE. -/
def c4cexState : Chip8 := { Chip8.new with opcode := 0x00EE }

/-- Claim C4 counterexample: on a freshly constructed stack the Vec of
    slots is empty, so pop indexes data[0] out of bounds and panics
    (modelled as none) instead of returning a value, and a return
    instruction on a fresh engine panics as well.  This refutes the claim
    that pop on a stack with top pointer 0 — including a fresh one — reads
    slot 0 rather than failing. -/
theorem c4_pop_fresh_panics :
    Stack.pop (Stack.new 4096) = none ∧ execute c4cexState = none := by
  constructor <;> rfl

/-- Claim C4 (amended): for every stack whose top pointer is 0 and whose
    slot buffer is nonempty (some push has occurred), pop reads slot 0 and
    returns whatever is stored there (the previously stored value, or none
    if the slot is empty) without failing; the top pointer stays 0 and the
    slot is cleared. -/
theorem c4_pop_top_zero_reads_slot_zero (s : Stack) (h0 : s.tail = 0)
    (h1 : 0 < s.data.length) :
    s.pop = some (s.data.getD 0 none, ⟨0, s.data.set 0 none, s.cap⟩) := by
  simp [Stack.pop, h0, h1]

/-- Witness for C4 at a concrete stack holding one pushed value. -/
theorem c4_witness :
    (Stack.mk 0 [some 7] 4096).tail = 0 ∧ 0 < (Stack.mk 0 [some 7] 4096).data.length ∧
    (Stack.mk 0 [some 7] 4096).pop =
      some ((Stack.mk 0 [some 7] 4096).data.getD 0 none,
        ⟨0, (Stack.mk 0 [some 7] 4096).data.set 0 none, (Stack.mk 0 [some 7] 4096).cap⟩) :=
  ⟨rfl, by decide, c4_pop_top_zero_reads_slot_zero (Stack.mk 0 [some 7] 4096) rfl (by decide)⟩

/- ------------------------------------------------------------------ -/
/- C5: wraparound overwrite                                            -/
/- ------------------------------------------------------------------ -/

/-- Claim C5 counterexample: with capacity K = 0 the claim fails, because
    the very first push hits the else branch of push_element and indexes
    the empty Vec out of bounds — pushing past capacity does raise a panic
    there rather than silently wrapping. -/
theorem c5_capacity_zero_push_panics :
    Stack.pushAll (Stack.new 0) [5] = none := by
  rfl

/-- Claim C5 (amended): for a stack constructed with capacity K, K at
    least 1, pushing K+1 values in order succeeds with no error and a
    subsequent pop returns the last value pushed (the K+1-th), the
    wrapped top pointer having overwritten the oldest slot. -/
theorem c5_push_past_capacity_wraps (K : Nat) (ws : List Nat) (w : Nat)
    (hK : 1 ≤ K) (hlen : ws.length = K) :
    ∃ s1, Stack.pushAll (Stack.new K) (ws ++ [w]) = some s1 ∧
      ∃ s2, s1.pop = some (some w, s2) := by
  have hfill := pushAll_fill ws [] K (by simpa using hK) (by simp [hlen])
  have hfull : Stack.pushAll (Stack.new K) ws = some ⟨0, ws.map some, K⟩ := by
    have : Stack.new K = ⟨(([] : List (Option Nat))).length, [], K⟩ := rfl
    rw [this, hfill]
    simp [hlen, Nat.mod_self]
  have happ : ∀ (a : List Nat) (s : Stack),
      Stack.pushAll s (a ++ [w]) =
        (Stack.pushAll s a).bind (fun t => t.push w) := by
    intro a
    induction a with
    | nil =>
        intro s
        simp [Stack.pushAll]
        cases h : s.push w <;> simp [Stack.pushAll]
    | cons u tl ih =>
        intro s
        rw [List.cons_append, Stack.pushAll, Stack.pushAll]
        cases h : s.push u with
        | none => simp
        | some t => simpa using ih t
  rcases ws with _ | ⟨a, tl⟩
  · exfalso
    have hz : K = 0 := by simpa using hlen.symm
    omega
  · have hpushw : (Stack.mk 0 ((a :: tl).map some) K).push w =
        some ⟨if 1 < K then 1 else 0, some w :: tl.map some, K⟩ := by
      have hlen2 : ((a :: tl).map some).length = K := by simpa using hlen
      have hne : (0 : Nat) ≠ ((a :: tl).map some).length := by omega
      simp only [Stack.push, Stack.push_element, Stack.is_full]
      rw [if_neg (by simp)]
      rw [if_pos (by simp)]
      simp
    refine ⟨⟨if 1 < K then 1 else 0, some w :: tl.map some, K⟩, ?_, ?_⟩
    · rw [happ (a :: tl) (Stack.new K), hfull]
      simpa using hpushw
    · refine ⟨⟨0, none :: tl.map some, K⟩, ?_⟩
      by_cases h1 : 1 < K
      · rw [if_pos h1]
        simp [Stack.pop]
      · rw [if_neg h1]
        simp [Stack.pop]

/-- Witness for C5 with capacity 2 and values 10, 20, 30. -/
theorem c5_witness :
    1 ≤ 2 ∧ ([10, 20] : List Nat).length = 2 ∧
    ∃ s1, Stack.pushAll (Stack.new 2) ([10, 20] ++ [30]) = some s1 ∧
      ∃ s2, s1.pop = some (some 30, s2) :=
  ⟨by decide, by decide, c5_push_past_capacity_wraps 2 [10, 20] 30 (by decide) (by decide)⟩

/- ------------------------------------------------------------------ -/
/- Dispatch lemmas                                                     -/
/- ------------------------------------------------------------------ -/

lemma execute_clear (st : Chip8) (h : st.opcode = 0x00E0) :
    execute st = some (clear_screen st) := by
  simp only [execute, h]
  rw [if_pos (by decide)]

lemma execute_return (st : Chip8) (h : st.opcode = 0x00EE) :
    execute st = return_from_subroutine st := by
  simp only [execute, h]
  rw [if_neg (by decide), if_pos (by decide)]

lemma execute_call (st : Chip8) (h : nib0 st.opcode = 0x2) :
    execute st = call_subroutine st (opNNN st.opcode) := by
  simp [execute, h]

lemma execute_addimm (st : Chip8) (h : nib0 st.opcode = 0x7) :
    execute st = some (add_immediate st (nib1 st.opcode) (opNN st.opcode)) := by
  simp [execute, h]

lemma execute_addreg (st : Chip8) (h8 : nib0 st.opcode = 0x8)
    (h4 : nib3 st.opcode = 0x4) :
    execute st = some (add_registers st (nib1 st.opcode) (nib2 st.opcode)) := by
  simp [execute, h8, h4]

lemma execute_draw (st : Chip8) (h : nib0 st.opcode = 0xD) :
    execute st = some (display st (nib1 st.opcode) (nib2 st.opcode) (nib3 st.opcode)) := by
  simp [execute, h]

/- ------------------------------------------------------------------ -/
/- C3: unmatched opcodes                                               -/
/- ------------------------------------------------------------------ -/

/-- Fresh engine that fetched 0x5121, one of the opcodes the claim lists
    as unmatched. -/
def c3cexState : Chip8 := { Chip8.new with opcode := 0x5121 }

/-- Claim C3 counterexample: 0x5121 is not a no-op.  The dispatch arm for
    the 0x5 family matches on the top nibble alone, so 0x5121 runs the
    register-equality skip; on a fresh engine V[1] = V[2] = 0, hence pc
    advances by 2 instead of every component staying unchanged. -/
theorem c3_opcode_5xy1_not_noop :
    (execute c3cexState).map Chip8.pc = some (c3cexState.pc + 2) ∧
    c3cexState.pc = 0x200 := by
  constructor <;> rfl

/-- Claim C3 (amended): an opcode is a no-op exactly when it escapes every
    dispatch arm of the code: the 0x0 family only matches 0x00E0 and
    0x00EE, whole-family matches exist for top nibbles 1 to 7, 9, A and D
    (so 0x5xy1 or 0x9xyF are executed as register-compare skips, not
    no-ops), and the 0x8 family matches only low nibbles 0 to 4.  For
    every opcode outside all of these, execute leaves the state (V, pc, I,
    memory, stack and framebuffer) completely unchanged. -/
theorem c3_unmatched_opcode_noop (st : Chip8)
    (hA : ¬(nib0 st.opcode = 0x0 ∧ nib1 st.opcode = 0x0 ∧ nib2 st.opcode = 0xE ∧ nib3 st.opcode = 0x0))
    (hB : ¬(nib0 st.opcode = 0x0 ∧ nib1 st.opcode = 0x0 ∧ nib2 st.opcode = 0xE ∧ nib3 st.opcode = 0xE))
    (h1 : nib0 st.opcode ≠ 0x1) (h2 : nib0 st.opcode ≠ 0x2)
    (h3 : nib0 st.opcode ≠ 0x3) (h4 : nib0 st.opcode ≠ 0x4)
    (h5 : nib0 st.opcode ≠ 0x5) (h9 : nib0 st.opcode ≠ 0x9)
    (h6 : nib0 st.opcode ≠ 0x6) (h7 : nib0 st.opcode ≠ 0x7)
    (hA2 : nib0 st.opcode ≠ 0xA) (hD : nib0 st.opcode ≠ 0xD)
    (h80 : ¬(nib0 st.opcode = 0x8 ∧ nib3 st.opcode = 0x0))
    (h81 : ¬(nib0 st.opcode = 0x8 ∧ nib3 st.opcode = 0x1))
    (h82 : ¬(nib0 st.opcode = 0x8 ∧ nib3 st.opcode = 0x2))
    (h83 : ¬(nib0 st.opcode = 0x8 ∧ nib3 st.opcode = 0x3))
    (h84 : ¬(nib0 st.opcode = 0x8 ∧ nib3 st.opcode = 0x4)) :
    execute st = some st := by
  simp only [execute]
  rw [if_neg hA, if_neg hB, if_neg h1, if_neg h2, if_neg h3, if_neg h4, if_neg h5,
      if_neg h9, if_neg h6, if_neg h7, if_neg hA2, if_neg hD, if_neg h80, if_neg h81,
      if_neg h82, if_neg h83, if_neg h84]

/-- Fresh engine that fetched 0xB123, which matches no dispatch arm. -/
def c3exState : Chip8 := { Chip8.new with opcode := 0xB123 }

/-- Witness for C3 at the unmatched opcode 0xB123. -/
theorem c3_witness :
    (¬(nib0 c3exState.opcode = 0x0 ∧ nib1 c3exState.opcode = 0x0 ∧ nib2 c3exState.opcode = 0xE ∧ nib3 c3exState.opcode = 0x0)) ∧
    (¬(nib0 c3exState.opcode = 0x0 ∧ nib1 c3exState.opcode = 0x0 ∧ nib2 c3exState.opcode = 0xE ∧ nib3 c3exState.opcode = 0xE)) ∧
    nib0 c3exState.opcode ≠ 0x1 ∧ nib0 c3exState.opcode ≠ 0x2 ∧
    nib0 c3exState.opcode ≠ 0x3 ∧ nib0 c3exState.opcode ≠ 0x4 ∧
    nib0 c3exState.opcode ≠ 0x5 ∧ nib0 c3exState.opcode ≠ 0x9 ∧
    nib0 c3exState.opcode ≠ 0x6 ∧ nib0 c3exState.opcode ≠ 0x7 ∧
    nib0 c3exState.opcode ≠ 0xA ∧ nib0 c3exState.opcode ≠ 0xD ∧
    (¬(nib0 c3exState.opcode = 0x8 ∧ nib3 c3exState.opcode = 0x0)) ∧
    (¬(nib0 c3exState.opcode = 0x8 ∧ nib3 c3exState.opcode = 0x1)) ∧
    (¬(nib0 c3exState.opcode = 0x8 ∧ nib3 c3exState.opcode = 0x2)) ∧
    (¬(nib0 c3exState.opcode = 0x8 ∧ nib3 c3exState.opcode = 0x3)) ∧
    (¬(nib0 c3exState.opcode = 0x8 ∧ nib3 c3exState.opcode = 0x4)) ∧
    execute c3exState = some c3exState := by
  have hA : ¬(nib0 c3exState.opcode = 0x0 ∧ nib1 c3exState.opcode = 0x0 ∧
      nib2 c3exState.opcode = 0xE ∧ nib3 c3exState.opcode = 0x0) := by decide
  have hB : ¬(nib0 c3exState.opcode = 0x0 ∧ nib1 c3exState.opcode = 0x0 ∧
      nib2 c3exState.opcode = 0xE ∧ nib3 c3exState.opcode = 0xE) := by decide
  have hTop : nib0 c3exState.opcode = 0xB := by decide
  have hOf : ∀ k : Nat, k ≠ 0xB → nib0 c3exState.opcode ≠ k := by
    intro k hk
    rw [hTop]
    exact fun hc => hk hc.symm
  have h8 : ∀ k : Nat, ¬(nib0 c3exState.opcode = 0x8 ∧ nib3 c3exState.opcode = k) :=
    fun k hc => hOf 0x8 (by decide) hc.1
  refine ⟨hA, hB, hOf 0x1 (by decide), hOf 0x2 (by decide), hOf 0x3 (by decide),
    hOf 0x4 (by decide), hOf 0x5 (by decide), hOf 0x9 (by decide), hOf 0x6 (by decide),
    hOf 0x7 (by decide), hOf 0xA (by decide), hOf 0xD (by decide),
    h8 0x0, h8 0x1, h8 0x2, h8 0x3, h8 0x4, ?_⟩
  exact c3_unmatched_opcode_noop c3exState hA hB (hOf 0x1 (by decide)) (hOf 0x2 (by decide))
    (hOf 0x3 (by decide)) (hOf 0x4 (by decide)) (hOf 0x5 (by decide)) (hOf 0x9 (by decide))
    (hOf 0x6 (by decide)) (hOf 0x7 (by decide)) (hOf 0xA (by decide)) (hOf 0xD (by decide))
    (h8 0x0) (h8 0x1) (h8 0x2) (h8 0x3) (h8 0x4)

/- ------------------------------------------------------------------ -/
/- C7: call then return round-trip                                     -/
/- ------------------------------------------------------------------ -/

/-- Reachable engine state whose circular stack has wrapped around: the
    buffer is fully populated (4096 slots) and the top pointer sits at the
    last slot, 4095.  The fetched opcode is a call to 0x300. -/
def c7cexState : Chip8 :=
  { Chip8.new with
    pc := 0x202
    opcode := 0x2300
    stack := ⟨4095, List.replicate 4096 (some 0), 4096⟩ }

set_option maxRecDepth 4000 in
/-- Claim C7 counterexample: with the top pointer at capacity - 1, the
    call stores pc into slot 4095 but the top pointer wraps to 0, so the
    following return pops slot 0 instead and sets pc to the stale value 0
    rather than restoring 0x202.  The round-trip claim therefore fails
    for this engine state. -/
theorem c7_wraparound_breaks_roundtrip :
    ((execute c7cexState).bind
        (fun s1 => execute { s1 with opcode := 0x00EE })).map Chip8.pc = some 0 ∧
    c7cexState.pc = 0x202 := by
  refine ⟨?_, rfl⟩
  have hpush : c7cexState.stack.push c7cexState.pc =
      some ⟨0, (List.replicate 4096 (some 0)).set 4095 (some 0x202), 4096⟩ := by
    show (Stack.mk 4095 (List.replicate 4096 (some 0)) 4096).push 0x202 = _
    simp only [Stack.push, Stack.push_element, Stack.is_full, List.length_replicate]
    norm_num
  have hpop : (Stack.mk 0 ((List.replicate 4096 (some 0)).set 4095 (some 0x202)) 4096).pop =
      some (some 0,
        ⟨0, ((List.replicate 4096 (some 0)).set 4095 (some 0x202)).set 0 none, 4096⟩) := by
    have hget : ((List.replicate 4096 (some 0)).set 4095 (some 0x202)).getD 0 none = some 0 := by
      rw [List.getD_eq_getElem?_getD,
          List.getElem?_set_ne (by omega : (4095 : Nat) ≠ 0),
          List.getElem?_replicate, if_pos (by norm_num)]
      rfl
    simp only [Stack.pop, List.length_set, List.length_replicate, hget]
    norm_num
  rw [execute_call c7cexState (by decide)]
  unfold call_subroutine
  rw [hpush]
  dsimp only
  rw [Option.some_bind]
  dsimp only
  rw [execute_return _ rfl]
  unfold return_from_subroutine
  dsimp only
  rw [hpop]
  rfl

/-- Claim C7 (amended): executing a call 0x2nnn and then a return 0x00EE
    with the stack untouched in between restores pc to its value right
    after the fetch of the call, provided the stack buffer is well formed
    (top pointer at most the buffer length, as in every reachable state)
    and the push does not wrap (top pointer + 1 below capacity). -/
theorem c7_call_return_restores_pc (st : Chip8) (hop : nib0 st.opcode = 0x2)
    (hwf : st.stack.tail ≤ st.stack.data.length)
    (hnw : st.stack.tail + 1 < st.stack.cap) :
    ∃ st1, execute st = some st1 ∧
      ∀ st2, st2.stack = st1.stack → st2.opcode = 0x00EE →
        ∃ st3, execute st2 = some st3 ∧ st3.pc = st.pc := by
  obtain ⟨d, hp, hget, hlt⟩ := push_succ st.stack st.pc hwf (by omega)
  rw [if_pos hnw] at hp
  refine ⟨{ st with
            stack := ⟨st.stack.tail + 1, d, st.stack.cap⟩
            pc := opNNN st.opcode }, ?_, ?_⟩
  · rw [execute_call st hop]
    simp [call_subroutine, hp]
  · intro st2 hs2 hop2
    have hpop : st2.stack.pop = some (some st.pc,
        ⟨st.stack.tail, d.set st.stack.tail none, st.stack.cap⟩) := by
      rw [hs2]
      have hh := pop_succ_tail ⟨st.stack.tail + 1, d, st.stack.cap⟩ (by simp)
        (by simpa using hlt)
      simp only [Nat.add_sub_cancel] at hh
      rw [hh, hget]
    refine ⟨{ st2 with
              pc := st.pc
              stack := ⟨st.stack.tail, d.set st.stack.tail none, st.stack.cap⟩ }, ?_, rfl⟩
    rw [execute_return st2 hop2]
    simp only [return_from_subroutine, hpop]

/-- Engine state about to execute a call with a well-formed, unwrapped
    stack. -/
def c7exState : Chip8 := { Chip8.new with pc := 0x202, opcode := 0x2400 }

/-- Witness for C7 on a fresh engine calling address 0x400. -/
theorem c7_witness :
    nib0 c7exState.opcode = 0x2 ∧
    c7exState.stack.tail ≤ c7exState.stack.data.length ∧
    c7exState.stack.tail + 1 < c7exState.stack.cap ∧
    (∃ st1, execute c7exState = some st1 ∧
      ∀ st2, st2.stack = st1.stack → st2.opcode = 0x00EE →
        ∃ st3, execute st2 = some st3 ∧ st3.pc = c7exState.pc) :=
  ⟨by decide, by decide, by decide,
   c7_call_return_restores_pc c7exState (by decide) (by decide) (by decide)⟩

/- ------------------------------------------------------------------ -/
/- C2: add with carry                                                  -/
/- ------------------------------------------------------------------ -/

/-- Fresh engine that fetched 0x8F04 (x = 0xF, y = 0x0) with V[0xF] = 5. -/
def c2cexState : Chip8 :=
  { Chip8.new with opcode := 0x8F04, V := fun j => if j = 15 then 5 else 0 }

/-- Claim C2 counterexample: with x = 0xF the flag write overwrites the
    stored sum.  Here old V[0xF] + V[0x0] = 5, so the claim demands
    V[x] = 5 afterwards, but the code leaves V[0xF] = 0 (the carry flag
    for the non-overflowing sum). -/
theorem c2_flag_overwrites_sum :
    (execute c2cexState).map (fun s => s.V 15) = some 0 ∧
    (c2cexState.V (nib1 c2cexState.opcode) + c2cexState.V (nib2 c2cexState.opcode)) % 256 = 5 := by
  constructor <;> rfl

/-- Claim C2 (amended): after 0x8xy4, V[0xF] is 1 exactly when the old
    V[x] + V[y] reaches 256, and V[x] holds the truncated sum provided
    x is not 0xF; when x = 0xF the later flag write overwrites the sum. -/
theorem c2_add_with_carry (st : Chip8) (h8 : nib0 st.opcode = 0x8)
    (h4 : nib3 st.opcode = 0x4)
    (hx : st.V (nib1 st.opcode) < 256) (hy : st.V (nib2 st.opcode) < 256) :
    ∃ st2, execute st = some st2 ∧
      st2.V 15 = (if 256 ≤ st.V (nib1 st.opcode) + st.V (nib2 st.opcode) then 1 else 0) ∧
      (nib1 st.opcode ≠ 15 →
        st2.V (nib1 st.opcode) =
          (st.V (nib1 st.opcode) + st.V (nib2 st.opcode)) % 256) := by
  rw [execute_addreg st h8 h4]
  refine ⟨_, rfl, ?_, ?_⟩
  · by_cases hov : 256 ≤ st.V (nib1 st.opcode) + st.V (nib2 st.opcode) <;>
      simp [add_registers, setV, hov]
  · intro hx15
    by_cases hov : 256 ≤ st.V (nib1 st.opcode) + st.V (nib2 st.opcode) <;>
      simp [add_registers, setV, hov, hx15]

/-- Fresh engine that fetched 0x8124 with V[1] = 200 and V[2] = 100. -/
def c2exState : Chip8 :=
  { Chip8.new with
    opcode := 0x8124
    V := fun j => if j = 1 then 200 else if j = 2 then 100 else 0 }

/-- Witness for C2: 200 + 100 overflows, so the flag is 1 and V[1] wraps. -/
theorem c2_witness :
    nib0 c2exState.opcode = 0x8 ∧ nib3 c2exState.opcode = 0x4 ∧
    c2exState.V (nib1 c2exState.opcode) < 256 ∧ c2exState.V (nib2 c2exState.opcode) < 256 ∧
    (∃ st2, execute c2exState = some st2 ∧
      st2.V 15 = (if 256 ≤ c2exState.V (nib1 c2exState.opcode) + c2exState.V (nib2 c2exState.opcode) then 1 else 0) ∧
      (nib1 c2exState.opcode ≠ 15 →
        st2.V (nib1 c2exState.opcode) =
          (c2exState.V (nib1 c2exState.opcode) + c2exState.V (nib2 c2exState.opcode)) % 256)) :=
  ⟨by decide, by decide, by decide, by decide,
   c2_add_with_carry c2exState (by decide) (by decide) (by decide) (by decide)⟩

/- ------------------------------------------------------------------ -/
/- C9: add immediate                                                   -/
/- ------------------------------------------------------------------ -/

/-- Claim C9: after 0x7xnn, V[x] holds (old + nn) mod 256 with no carry
    signalled and no register other than V[x] written — in particular the
    flag register V[0xF] is untouched whenever it is not the destination. -/
theorem c9_add_immediate_wraps (st : Chip8) (h7 : nib0 st.opcode = 0x7)
    (hx : st.V (nib1 st.opcode) < 256) :
    ∃ st2, execute st = some st2 ∧
      st2.V (nib1 st.opcode) = (st.V (nib1 st.opcode) + opNN st.opcode) % 256 ∧
      ∀ j, j ≠ nib1 st.opcode → st2.V j = st.V j := by
  rw [execute_addimm st h7]
  refine ⟨_, rfl, ?_, ?_⟩
  · simp [add_immediate, setV, Nat.add_comm]
  · intro j hj
    simp [add_immediate, setV, hj]

/-- Fresh engine that fetched 0x73FE with V[3] = 7. -/
def c9exState : Chip8 :=
  { Chip8.new with opcode := 0x73FE, V := fun j => if j = 3 then 7 else 0 }

/-- Witness for C9: 7 + 0xFE wraps to 5 and no other register moves. -/
theorem c9_witness :
    nib0 c9exState.opcode = 0x7 ∧ c9exState.V (nib1 c9exState.opcode) < 256 ∧
    (∃ st2, execute c9exState = some st2 ∧
      st2.V (nib1 c9exState.opcode) = (c9exState.V (nib1 c9exState.opcode) + opNN c9exState.opcode) % 256 ∧
      ∀ j, j ≠ nib1 c9exState.opcode → st2.V j = c9exState.V j) :=
  ⟨by decide, by decide,
   c9_add_immediate_wraps c9exState (by decide) (by decide)⟩

/- ------------------------------------------------------------------ -/
/- Screen clear lemmas and C6                                          -/
/- ------------------------------------------------------------------ -/

lemma clearInner_meta (x : Nat) (s : Screen) (m : Nat) :
    (Screen.clearInner x s m).update_screen = s.update_screen ∧
    (Screen.clearInner x s m).width = s.width ∧
    (Screen.clearInner x s m).height = s.height := by
  induction m with
  | zero => exact ⟨rfl, rfl, rfl⟩
  | succ m ih => simpa [Screen.clearInner, Screen.set_pixel] using ih

lemma clearInner_pixels (x : Nat) (s : Screen) (m : Nat) (py px : Nat) :
    (Screen.clearInner x s m).pixels py px =
      if px = x ∧ py < m then 0 else s.pixels py px := by
  induction m with
  | zero => simp [Screen.clearInner]
  | succ m ih =>
      simp only [Screen.clearInner, Screen.set_pixel]
      by_cases h1 : py = m ∧ px = x
      · rcases h1 with ⟨hpy, hpx⟩
        subst hpy
        subst hpx
        simp
      · rw [if_neg h1, ih]
        by_cases h2 : px = x ∧ py < m
        · rw [if_pos h2, if_pos ⟨h2.1, by omega⟩]
        · rw [if_neg h2, if_neg ?_]
          rintro ⟨ha, hb⟩
          rcases Nat.lt_succ_iff_lt_or_eq.mp hb with h | h
          · exact h2 ⟨ha, h⟩
          · exact h1 ⟨h, ha⟩

lemma clearOuter_meta (s : Screen) (k : Nat) :
    (Screen.clearOuter s k).update_screen = s.update_screen ∧
    (Screen.clearOuter s k).width = s.width ∧
    (Screen.clearOuter s k).height = s.height := by
  induction k with
  | zero => exact ⟨rfl, rfl, rfl⟩
  | succ k ih =>
      have hi := clearInner_meta k (Screen.clearOuter s k) 32
      exact ⟨hi.1.trans ih.1, (hi.2.1).trans ih.2.1, (hi.2.2).trans ih.2.2⟩

lemma clearOuter_pixels (s : Screen) (k : Nat) (py px : Nat) :
    (Screen.clearOuter s k).pixels py px =
      if px < k ∧ py < 32 then 0 else s.pixels py px := by
  induction k with
  | zero => simp [Screen.clearOuter]
  | succ k ih =>
      simp only [Screen.clearOuter]
      rw [clearInner_pixels, ih]
      by_cases h1 : px = k ∧ py < 32
      · obtain ⟨hpx, hpy⟩ := h1
        rw [if_pos ⟨hpx, hpy⟩, if_pos (⟨by omega, hpy⟩ : px < k + 1 ∧ py < 32)]
      · rw [if_neg h1]
        by_cases h2 : px < k ∧ py < 32
        · rw [if_pos h2, if_pos ⟨by omega, h2.2⟩]
        · rw [if_neg h2, if_neg ?_]
          rintro ⟨ha, hb⟩
          rcases Nat.lt_succ_iff_lt_or_eq.mp ha with h | h
          · exact h2 ⟨h, hb⟩
          · exact h1 ⟨h, hb⟩

/-- Fresh engine (dirty flag false) that fetched the clear opcode. -/
def c6cexState : Chip8 := { Chip8.new with opcode := 0x00E0 }

/-- Claim C6 counterexample: executing 0x00E0 leaves the update_screen
    flag at false — neither Screen::clear nor clear_screen ever writes
    the dirty flag (clear redraws the canvas directly instead), so the
    claim that the flag is set to true fails. -/
theorem c6_clear_does_not_set_dirty :
    (execute c6cexState).map (fun s => s.screen.update_screen) = some false ∧
    c6cexState.screen.update_screen = false := by
  refine ⟨?_, rfl⟩
  rw [execute_clear _ rfl]
  have hm : (clear_screen c6cexState).screen.update_screen = false := by
    show (c6cexState.screen.clearOuter 64).update_screen = false
    rw [(clearOuter_meta c6cexState.screen 64).1]
    rfl
  simp [hm]

/-- Claim C6 (amended): executing 0x00E0 sets every framebuffer pixel
    (x below 64, y below 32) to 0, while the update_screen dirty flag is
    left unchanged, not set to true. -/
theorem c6_clear_screen (st : Chip8) (h : st.opcode = 0x00E0) :
    ∃ st2, execute st = some st2 ∧
      (∀ px py, px < 64 → py < 32 → st2.screen.pixels py px = 0) ∧
      st2.screen.update_screen = st.screen.update_screen := by
  rw [execute_clear st h]
  refine ⟨_, rfl, ?_, ?_⟩
  · intro px py hx hy
    show (clear_screen st).screen.pixels py px = 0
    simp [clear_screen, Screen.clear, clearOuter_pixels, hx, hy]
  · show (clear_screen st).screen.update_screen = _
    simp [clear_screen, Screen.clear, (clearOuter_meta st.screen 64).1]

/-- Engine with a dirtied screen that fetched the clear opcode. -/
def c6exState : Chip8 :=
  { Chip8.new with opcode := 0x00E0, screen := { Screen.new with update_screen := true } }

/-- Witness for C6: after the clear every pixel is 0 and the flag keeps
    its old value true. -/
theorem c6_witness :
    c6exState.opcode = 0x00E0 ∧
    ∃ st2, execute c6exState = some st2 ∧
      (∀ px py, px < 64 → py < 32 → st2.screen.pixels py px = 0) ∧
      st2.screen.update_screen = c6exState.screen.update_screen :=
  ⟨rfl, c6_clear_screen c6exState rfl⟩

/- ------------------------------------------------------------------ -/
/- Draw lemmas                                                         -/
/- ------------------------------------------------------------------ -/

lemma coreEq_refl (a : Chip8) : coreEq a a := ⟨rfl, rfl, rfl, rfl, rfl, rfl⟩

lemma scrMetaEq_refl (a : Chip8) : scrMetaEq a a := ⟨rfl, rfl, rfl⟩

lemma coreEq_trans {a b c : Chip8} (h1 : coreEq a b) (h2 : coreEq b c) : coreEq a c :=
  ⟨h1.1.trans h2.1, h1.2.1.trans h2.2.1, h1.2.2.1.trans h2.2.2.1,
   h1.2.2.2.1.trans h2.2.2.2.1, h1.2.2.2.2.1.trans h2.2.2.2.2.1,
   h1.2.2.2.2.2.trans h2.2.2.2.2.2⟩

lemma scrMetaEq_trans {a b c : Chip8} (h1 : scrMetaEq a b) (h2 : scrMetaEq b c) :
    scrMetaEq a c :=
  ⟨h1.1.trans h2.1, h1.2.1.trans h2.2.1, h1.2.2.trans h2.2.2⟩

lemma rowTouch_self_false (sprite vx k : Nat) :
    ∀ m, m ≤ k → rowTouch sprite vx (vx + k) m = false := by
  intro m
  induction m with
  | zero => intro _; rfl
  | succ m ih =>
      intro hm
      simp only [rowTouch]
      rw [ih (by omega), Bool.false_or]
      have hne : (vx + k == vx + m) = false := by
        rw [beq_eq_false_iff_ne]
        omega
      rw [hne, Bool.and_false]

lemma rowTouch_hit (sprite vx b : Nat) (hbit : spriteBit sprite b = true) :
    ∀ m, b < m → rowTouch sprite vx (vx + b) m = true := by
  intro m
  induction m with
  | zero => intro h; omega
  | succ m ih =>
      intro hm
      simp only [rowTouch]
      rcases Nat.lt_succ_iff_lt_or_eq.mp hm with h | h
      · rw [ih h, Bool.true_or]
      · subst h
        rw [hbit]
        simp

lemma sprTouch_row_false (mem : Nat → Nat) (i vx vy px r : Nat) :
    ∀ k, k ≤ r → sprTouch mem i vx vy px (vy + r) k = false := by
  intro k
  induction k with
  | zero => intro _; rfl
  | succ k ih =>
      intro hk
      simp only [sprTouch]
      rw [ih (by omega), Bool.false_or]
      have hne : (vy + r == vy + k) = false := by
        rw [beq_eq_false_iff_ne]
        omega
      rw [hne, Bool.false_and]

lemma sprTouch_hit (mem : Nat → Nat) (i vx vy : Nat) (r b : Nat) (hb : b < 8)
    (hbit : spriteBit (mem (i + r)) b = true) :
    ∀ k, r < k → sprTouch mem i vx vy (vx + b) (vy + r) k = true := by
  intro k
  induction k with
  | zero => intro h; omega
  | succ k ih =>
      intro hk
      simp only [sprTouch]
      rcases Nat.lt_succ_iff_lt_or_eq.mp hk with h | h
      · rw [ih h, Bool.true_or]
      · subst h
        rw [rowTouch_hit (mem (i + r)) vx b hbit 8 hb]
        simp

lemma rowColl_congr (pix1 pix2 : Nat → Nat → Nat) (sprite vx vy yv : Nat)
    (h : ∀ q, pix1 (vy + yv) q = pix2 (vy + yv) q) :
    ∀ m, rowColl pix1 sprite vx vy yv m = rowColl pix2 sprite vx vy yv m := by
  intro m
  induction m with
  | zero => rfl
  | succ m ih =>
      simp only [rowColl]
      rw [ih, h]

/-- Full characterization of the inner display loop over the first m bit
    positions: only pixels of row vy + yv at set-bit columns are toggled,
    V[0xF] becomes 1 exactly when one of those pixels read 1 beforehand,
    and nothing else changes. -/
lemma drawRowAux_spec (vx vy yv sprite : Nat) (s : Chip8) :
    ∀ m,
      coreEq (drawRowAux vx vy yv sprite s m) s ∧
      scrMetaEq (drawRowAux vx vy yv sprite s m) s ∧
      (∀ j, j ≠ 15 → (drawRowAux vx vy yv sprite s m).V j = s.V j) ∧
      (∀ px py, (drawRowAux vx vy yv sprite s m).screen.pixels py px =
          if py = vy + yv ∧ rowTouch sprite vx px m = true
          then Nat.xor (s.screen.pixels py px) 1 else s.screen.pixels py px) ∧
      ((drawRowAux vx vy yv sprite s m).V 15 =
        if rowColl s.screen.pixels sprite vx vy yv m = true then 1 else s.V 15) := by
  intro m
  induction m with
  | zero =>
      refine ⟨coreEq_refl _, scrMetaEq_refl _, fun j _ => rfl, ?_, ?_⟩
      · intro px py
        simp [drawRowAux, rowTouch]
      · simp [drawRowAux, rowColl]
  | succ m ih =>
      obtain ⟨hcore, hmeta, hV, hpix, hVF⟩ := ih
      set t := drawRowAux vx vy yv sprite s m with ht
      have hnt : rowTouch sprite vx (vx + m) m = false :=
        rowTouch_self_false sprite vx m m le_rfl
      have hread : t.screen.pixels (vy + yv) (vx + m) =
          s.screen.pixels (vy + yv) (vx + m) := by
        rw [hpix]
        simp [hnt]
      have hstep : drawRowAux vx vy yv sprite s (m + 1) = drawBit vx vy yv sprite t m := rfl
      rw [hstep]
      simp only [drawBit]
      by_cases hbit : spriteBit sprite m = true
      · rw [if_pos hbit]
        by_cases hcol : t.screen.get_pixel (vx + m) (vy + yv) = 1
        · rw [if_pos hcol]
          have hs1 : s.screen.pixels (vy + yv) (vx + m) = 1 := by
            rw [← hread]
            exact hcol
          refine ⟨hcore, hmeta, ?_, ?_, ?_⟩
          · intro j hj
            have : (setV t 15 1).V j = t.V j := by
              simp [setV, hj]
            exact this.trans (hV j hj)
          · intro px py
            have hrw : ({ setV t 15 1 with
                screen := (setV t 15 1).screen.update_pixel (vx + m) (vy + yv) } :
                  Chip8).screen.pixels py px =
                if py = vy + yv ∧ px = vx + m
                then Nat.xor (t.screen.pixels (vy + yv) (vx + m)) 1
                else t.screen.pixels py px := rfl
            rw [hrw, hread]
            by_cases hA : py = vy + yv ∧ px = vx + m
            · obtain ⟨hA1, hA2⟩ := hA
              subst hA1
              subst hA2
              have hrt1 : rowTouch sprite vx (vx + m) (m + 1) = true := by
                simp [rowTouch, hbit]
              rw [if_pos ⟨rfl, rfl⟩, if_pos ⟨rfl, hrt1⟩]
            · rw [if_neg hA, hpix px py]
              by_cases hpy : py = vy + yv
              · subst hpy
                have hpx : px ≠ vx + m := fun hc => hA ⟨rfl, hc⟩
                have hrt : rowTouch sprite vx px (m + 1) = rowTouch sprite vx px m := by
                  simp only [rowTouch]
                  have : (px == vx + m) = false := by
                    rw [beq_eq_false_iff_ne]
                    exact hpx
                  rw [this, Bool.and_false, Bool.or_false]
                rw [hrt]
              · rw [if_neg (fun hc => hpy hc.1), if_neg (fun hc => hpy hc.1)]
          · have hrc : rowColl s.screen.pixels sprite vx vy yv (m + 1) = true := by
              simp only [rowColl]
              rw [hbit, hs1]
              simp
            rw [hrc, if_pos rfl]
            rfl
        · rw [if_neg hcol]
          have hs1 : (s.screen.pixels (vy + yv) (vx + m) == 1) = false := by
            rw [beq_eq_false_iff_ne]
            intro hc
            exact hcol (by rw [show t.screen.get_pixel (vx + m) (vy + yv) =
              t.screen.pixels (vy + yv) (vx + m) from rfl, hread]; exact hc)
          refine ⟨hcore, hmeta, hV, ?_, ?_⟩
          · intro px py
            have hrw : ({ t with
                screen := t.screen.update_pixel (vx + m) (vy + yv) } :
                  Chip8).screen.pixels py px =
                if py = vy + yv ∧ px = vx + m
                then Nat.xor (t.screen.pixels (vy + yv) (vx + m)) 1
                else t.screen.pixels py px := rfl
            rw [hrw, hread]
            by_cases hA : py = vy + yv ∧ px = vx + m
            · obtain ⟨hA1, hA2⟩ := hA
              subst hA1
              subst hA2
              have hrt1 : rowTouch sprite vx (vx + m) (m + 1) = true := by
                simp [rowTouch, hbit]
              rw [if_pos ⟨rfl, rfl⟩, if_pos ⟨rfl, hrt1⟩]
            · rw [if_neg hA, hpix px py]
              by_cases hpy : py = vy + yv
              · subst hpy
                have hpx : px ≠ vx + m := fun hc => hA ⟨rfl, hc⟩
                have hrt : rowTouch sprite vx px (m + 1) = rowTouch sprite vx px m := by
                  simp only [rowTouch]
                  have : (px == vx + m) = false := by
                    rw [beq_eq_false_iff_ne]
                    exact hpx
                  rw [this, Bool.and_false, Bool.or_false]
                rw [hrt]
              · rw [if_neg (fun hc => hpy hc.1), if_neg (fun hc => hpy hc.1)]
          · have hrc : rowColl s.screen.pixels sprite vx vy yv (m + 1) =
                rowColl s.screen.pixels sprite vx vy yv m := by
              simp only [rowColl]
              rw [hbit, hs1]
              simp
            rw [hrc]
            exact hVF
      · rw [if_neg hbit]
        have hb : spriteBit sprite m = false := by
          simpa using hbit
        refine ⟨hcore, hmeta, hV, ?_, ?_⟩
        · intro px py
          rw [hpix px py]
          have hrt : rowTouch sprite vx px (m + 1) = rowTouch sprite vx px m := by
            simp only [rowTouch]
            rw [hb, Bool.false_and, Bool.or_false]
          rw [hrt]
        · have hrc : rowColl s.screen.pixels sprite vx vy yv (m + 1) =
              rowColl s.screen.pixels sprite vx vy yv m := by
            simp only [rowColl]
            rw [hb, Bool.false_and, Bool.or_false]
          rw [hrc]
          exact hVF

/-- Full characterization of the outer display loop over the first k
    sprite rows. -/
lemma displayRows_spec (vx vy : Nat) (s : Chip8) :
    ∀ k,
      coreEq (displayRows vx vy s k) s ∧
      scrMetaEq (displayRows vx vy s k) s ∧
      (∀ j, j ≠ 15 → (displayRows vx vy s k).V j = s.V j) ∧
      (∀ px py, (displayRows vx vy s k).screen.pixels py px =
          if sprTouch s.memory s.I vx vy px py k = true
          then Nat.xor (s.screen.pixels py px) 1 else s.screen.pixels py px) ∧
      ((displayRows vx vy s k).V 15 =
        if sprColl s.screen.pixels s.memory s.I vx vy k = true then 1 else s.V 15) := by
  intro k
  induction k with
  | zero =>
      refine ⟨coreEq_refl _, scrMetaEq_refl _, fun j _ => rfl, ?_, ?_⟩
      · intro px py
        simp [displayRows, sprTouch]
      · simp [displayRows, sprColl]
  | succ k ih =>
      obtain ⟨hcore, hmeta, hV, hpix, hVF⟩ := ih
      set t := displayRows vx vy s k with ht
      have hmem : t.memory = s.memory := hcore.2.2.2.2.2
      have hI : t.I = s.I := hcore.2.1
      have hstep : displayRows vx vy s (k + 1) =
          drawRowAux vx vy k (t.memory (t.I + k)) t 8 := rfl
      rw [hstep, hmem, hI]
      obtain ⟨bcore, bmeta, bV, bpix, bVF⟩ :=
        drawRowAux_spec vx vy k (s.memory (s.I + k)) t 8
      have hrow : ∀ q, t.screen.pixels (vy + k) q = s.screen.pixels (vy + k) q := by
        intro q
        rw [hpix q (vy + k), sprTouch_row_false s.memory s.I vx vy q k k le_rfl]
        simp
      refine ⟨coreEq_trans bcore hcore, scrMetaEq_trans bmeta hmeta, ?_, ?_, ?_⟩
      · intro j hj
        exact (bV j hj).trans (hV j hj)
      · intro px py
        rw [bpix px py]
        by_cases hc : py = vy + k ∧ rowTouch (s.memory (s.I + k)) vx px 8 = true
        · rw [if_pos hc]
          obtain ⟨hc1, hc2⟩ := hc
          subst hc1
          rw [hrow px]
          have hst : sprTouch s.memory s.I vx vy px (vy + k) (k + 1) = true := by
            simp only [sprTouch]
            rw [hc2]
            simp
          rw [if_pos hst]
        · rw [if_neg hc, hpix px py]
          have hd : ((py == vy + k) && rowTouch (s.memory (s.I + k)) vx px 8) = false := by
            by_cases hpy : py = vy + k
            · subst hpy
              cases h : rowTouch (s.memory (s.I + k)) vx px 8 with
              | true => exact absurd ⟨rfl, h⟩ hc
              | false => simp
            · have : (py == vy + k) = false := by
                rw [beq_eq_false_iff_ne]
                exact hpy
              rw [this, Bool.false_and]
          have hst : sprTouch s.memory s.I vx vy px py (k + 1) =
              sprTouch s.memory s.I vx vy px py k := by
            simp only [sprTouch]
            rw [hd, Bool.or_false]
          rw [hst]
      · rw [bVF,
            rowColl_congr t.screen.pixels s.screen.pixels (s.memory (s.I + k)) vx vy k hrow 8,
            hVF]
        by_cases h1 : rowColl s.screen.pixels (s.memory (s.I + k)) vx vy k 8 = true
        · rw [if_pos h1]
          have hsc : sprColl s.screen.pixels s.memory s.I vx vy (k + 1) = true := by
            simp only [sprColl]
            rw [h1]
            simp
          rw [hsc, if_pos rfl]
        · rw [if_neg h1]
          have h1f : rowColl s.screen.pixels (s.memory (s.I + k)) vx vy k 8 = false := by
            simpa using h1
          have hsc : sprColl s.screen.pixels s.memory s.I vx vy (k + 1) =
              sprColl s.screen.pixels s.memory s.I vx vy k := by
            simp only [sprColl]
            rw [h1f, Bool.or_false]
          rw [hsc]

/-- Full characterization of the display opcode handler: the dirty flag
    is set, the touched pixels (set sprite bits) are XOR toggled, V[0xF]
    reports whether any touched pixel read 1 beforehand (each target cell
    is visited at most once, so reading during the draw equals reading
    before it), and nothing else changes. -/
lemma display_spec (st : Chip8) (x y n : Nat) :
    coreEq (display st x y n) st ∧
    (display st x y n).screen.width = st.screen.width ∧
    (display st x y n).screen.height = st.screen.height ∧
    (display st x y n).screen.update_screen = true ∧
    (∀ j, j ≠ 15 → (display st x y n).V j = st.V j) ∧
    (∀ px py, (display st x y n).screen.pixels py px =
        if sprTouch st.memory st.I (st.V x % 64) (st.V y % 32) px py n = true
        then Nat.xor (st.screen.pixels py px) 1 else st.screen.pixels py px) ∧
    ((display st x y n).V 15 =
      if sprColl st.screen.pixels st.memory st.I (st.V x % 64) (st.V y % 32) n = true
      then 1 else 0) := by
  obtain ⟨rcore, rmeta, rV, rpix, rVF⟩ :=
    displayRows_spec (st.V x % 64) (st.V y % 32) (setV st 15 0) n
  set t := displayRows (st.V x % 64) (st.V y % 32) (setV st 15 0) n with ht
  have h0core : coreEq (setV st 15 0) st := ⟨rfl, rfl, rfl, rfl, rfl, rfl⟩
  refine ⟨coreEq_trans rcore h0core, ?_, ?_, rfl, ?_, ?_, ?_⟩
  · exact rmeta.1
  · exact rmeta.2.1
  · intro j hj
    have h1 : (display st x y n).V j = t.V j := rfl
    have h2 : (setV st 15 0).V j = st.V j := by
      simp [setV, hj]
    exact h1.trans ((rV j hj).trans h2)
  · exact rpix
  · exact rVF

lemma xor_one_cancel (v : Nat) : Nat.xor (Nat.xor v 1) 1 = v := Nat.xor_cancel_right 1 v

lemma xor_one_beq_one (v : Nat) : (Nat.xor v 1 == 1) = (v == 0) := by
  cases h : v == 0 with
  | true =>
      have hv : v = 0 := by simpa using h
      subst hv
      rfl
  | false =>
      have hne : v ≠ 0 := by simpa using h
      refine beq_eq_false_iff_ne.mpr ?_
      intro hc
      apply hne
      have h2 := xor_one_cancel v
      rw [hc] at h2
      have h3 : Nat.xor 1 1 = 0 := rfl
      rw [h3] at h2
      exact h2.symm

lemma rowColl_toggle (pix0 pix1 : Nat → Nat → Nat) (sprite vx vy yv : Nat)
    (h : ∀ b, b < 8 → spriteBit sprite b = true →
        pix1 (vy + yv) (vx + b) = Nat.xor (pix0 (vy + yv) (vx + b)) 1) :
    ∀ m, m ≤ 8 → rowColl pix1 sprite vx vy yv m = rowFree pix0 sprite vx vy yv m := by
  intro m
  induction m with
  | zero => intro _; rfl
  | succ m ih =>
      intro hm
      simp only [rowColl, rowFree]
      rw [ih (by omega)]
      congr 1
      cases hb : spriteBit sprite m with
      | false => simp
      | true =>
          rw [h m (by omega) hb]
          simp only [Bool.true_and]
          exact xor_one_beq_one _

lemma sprColl_toggle (pix0 pix1 : Nat → Nat → Nat) (mem : Nat → Nat) (i vx vy n : Nat)
    (h : ∀ r b, r < n → b < 8 → spriteBit (mem (i + r)) b = true →
        pix1 (vy + r) (vx + b) = Nat.xor (pix0 (vy + r) (vx + b)) 1) :
    ∀ k, k ≤ n → sprColl pix1 mem i vx vy k = sprFree pix0 mem i vx vy k := by
  intro k
  induction k with
  | zero => intro _; rfl
  | succ k ih =>
      intro hk
      simp only [sprColl, sprFree]
      rw [ih (by omega),
          rowColl_toggle pix0 pix1 (mem (i + k)) vx vy k
            (fun b hb hbit => h k b (by omega) hb hbit) 8 le_rfl]

/- ------------------------------------------------------------------ -/
/- C1: draw semantics                                                  -/
/- ------------------------------------------------------------------ -/

/-- Claim C1: for opcode 0xDxyn with every addressed coordinate and
    memory cell in range, execute sets the dirty flag, XOR toggles
    exactly the pixels under set sprite bits (row r at I + r, bit b
    counted from the most significant), and V[0xF] ends 1 exactly when
    some set bit lay over a pixel that read 1 before the draw — the
    sticky collision flag over the original grid, since each target cell
    is visited at most once during the draw. -/
theorem c1_draw_semantics (st : Chip8) (x y n : Nat)
    (hD : nib0 st.opcode = 0xD) (hx1 : nib1 st.opcode = x) (hy1 : nib2 st.opcode = y)
    (hn1 : nib3 st.opcode = n)
    (hxr : st.V x % 64 + 7 < 64)
    (hyr : st.V y % 32 + n ≤ 32)
    (hIr : st.I + n ≤ 4096) :
    ∃ st2, execute st = some st2 ∧
      st2.screen.update_screen = true ∧
      (∀ px py, st2.screen.pixels py px =
          if sprTouch st.memory st.I (st.V x % 64) (st.V y % 32) px py n = true
          then Nat.xor (st.screen.pixels py px) 1 else st.screen.pixels py px) ∧
      st2.V 15 = (if sprColl st.screen.pixels st.memory st.I
          (st.V x % 64) (st.V y % 32) n = true then 1 else 0) := by
  subst hx1
  subst hy1
  subst hn1
  rw [execute_draw st hD]
  obtain ⟨_, _, _, hdirty, _, hpix, hVF⟩ :=
    display_spec st (nib1 st.opcode) (nib2 st.opcode) (nib3 st.opcode)
  exact ⟨_, rfl, hdirty, hpix, hVF⟩

/-- Draw state: opcode 0xD015 (x = 0, y = 1, n = 5) over a sprite with a
    single set bit at the top-left corner. -/
def c1exState : Chip8 :=
  { Chip8.new with
    opcode := 0xD015
    memory := fun a => if a = 0 then 0x80 else 0 }

/-- Witness for C1 at a concrete draw. -/
theorem c1_witness :
    nib0 c1exState.opcode = 0xD ∧ nib1 c1exState.opcode = 0 ∧
    nib2 c1exState.opcode = 1 ∧ nib3 c1exState.opcode = 5 ∧
    c1exState.V 0 % 64 + 7 < 64 ∧ c1exState.V 1 % 32 + 5 ≤ 32 ∧
    c1exState.I + 5 ≤ 4096 ∧
    (∃ st2, execute c1exState = some st2 ∧
      st2.screen.update_screen = true ∧
      (∀ px py, st2.screen.pixels py px =
          if sprTouch c1exState.memory c1exState.I (c1exState.V 0 % 64)
              (c1exState.V 1 % 32) px py 5 = true
          then Nat.xor (c1exState.screen.pixels py px) 1
          else c1exState.screen.pixels py px) ∧
      st2.V 15 = (if sprColl c1exState.screen.pixels c1exState.memory c1exState.I
          (c1exState.V 0 % 64) (c1exState.V 1 % 32) 5 = true then 1 else 0)) :=
  ⟨by decide, by decide, by decide, by decide, by decide, by decide, by decide,
   c1_draw_semantics c1exState 0 1 5 (by decide) (by decide) (by decide) (by decide)
     (by decide) (by decide) (by decide)⟩

/- ------------------------------------------------------------------ -/
/- C10: draw frame effect                                              -/
/- ------------------------------------------------------------------ -/

/-- Claim C10: an in-range draw modifies only the pixel grid, the dirty
    flag and V[0xF]; pc, I, the opcode register, memory, the stack, the
    delay timer and the registers V[0x0] to V[0xE] are unchanged. -/
theorem c10_draw_frame_effect (st : Chip8) (x y n : Nat)
    (hD : nib0 st.opcode = 0xD) (hx1 : nib1 st.opcode = x) (hy1 : nib2 st.opcode = y)
    (hn1 : nib3 st.opcode = n)
    (hxr : st.V x % 64 + 7 < 64)
    (hyr : st.V y % 32 + n ≤ 32)
    (hIr : st.I + n ≤ 4096) :
    ∃ st2, execute st = some st2 ∧
      st2.pc = st.pc ∧ st2.I = st.I ∧ st2.opcode = st.opcode ∧
      st2.delay_timer = st.delay_timer ∧ st2.stack = st.stack ∧
      st2.memory = st.memory ∧
      (∀ j, j < 15 → st2.V j = st.V j) := by
  subst hx1
  subst hy1
  subst hn1
  rw [execute_draw st hD]
  obtain ⟨hcore, _, _, _, hVj, _, _⟩ :=
    display_spec st (nib1 st.opcode) (nib2 st.opcode) (nib3 st.opcode)
  exact ⟨_, rfl, hcore.1, hcore.2.1, hcore.2.2.1, hcore.2.2.2.1, hcore.2.2.2.2.1,
    hcore.2.2.2.2.2, fun j hj => hVj j (by omega)⟩

/-- Draw state: opcode 0xD120 (x = 1, y = 2, n = 0) with V[1] = 10 and
    V[2] = 20. -/
def c10exState : Chip8 :=
  { Chip8.new with
    opcode := 0xD120
    V := fun j => if j = 1 then 10 else if j = 2 then 20 else 0 }

/-- Witness for C10 at a concrete draw. -/
theorem c10_witness :
    nib0 c10exState.opcode = 0xD ∧ nib1 c10exState.opcode = 1 ∧
    nib2 c10exState.opcode = 2 ∧ nib3 c10exState.opcode = 0 ∧
    c10exState.V 1 % 64 + 7 < 64 ∧ c10exState.V 2 % 32 + 0 ≤ 32 ∧
    c10exState.I + 0 ≤ 4096 ∧
    (∃ st2, execute c10exState = some st2 ∧
      st2.pc = c10exState.pc ∧ st2.I = c10exState.I ∧ st2.opcode = c10exState.opcode ∧
      st2.delay_timer = c10exState.delay_timer ∧ st2.stack = c10exState.stack ∧
      st2.memory = c10exState.memory ∧
      (∀ j, j < 15 → st2.V j = c10exState.V j)) :=
  ⟨by decide, by decide, by decide, by decide, by decide, by decide, by decide,
   c10_draw_frame_effect c10exState 1 2 0 (by decide) (by decide) (by decide) (by decide)
     (by decide) (by decide) (by decide)⟩

/- ------------------------------------------------------------------ -/
/- C8: double draw                                                     -/
/- ------------------------------------------------------------------ -/

/-- Draw state whose single set sprite bit lies over a pixel that already
    reads 1. -/
def c8cexState : Chip8 :=
  { Chip8.new with
    opcode := 0xD011
    memory := fun a => if a = 0 then 0x80 else 0
    screen := { Screen.new with
      pixels := fun py px => if py = 0 ∧ px = 0 then 1 else 0 } }

/-- Claim C8 counterexample: the sprite has a set bit, yet after drawing
    it twice V[0xF] is 0, because the target pixel read 1 before the
    first draw: the first draw cleared it (reporting the collision), so
    the second draw saw 0 there and reported none.  The claim that the
    second draw always reports 1 when the sprite has a set bit fails. -/
theorem c8_second_draw_flag_can_be_zero :
    spriteBit (c8cexState.memory c8cexState.I) 0 = true ∧
    ((execute c8cexState).bind execute).map (fun s => s.V 15) = some 0 := by
  constructor <;> rfl

/-- Claim C8 (amended): drawing the same in-range sprite twice in a row
    (x and y not 0xF, so the first draw leaves the operand registers
    alone) restores every pixel to its pre-draw state, and the second
    draw reports V[0xF] = 1 provided some set sprite bit lay over a pixel
    that read 0 before the first draw (exactly those pixels are left set
    by the first draw; bits over pixels that read 1 are cleared by it and
    yield no collision on the second pass). -/
theorem c8_double_draw_restores (st : Chip8) (x y n : Nat)
    (hD : nib0 st.opcode = 0xD) (hx1 : nib1 st.opcode = x) (hy1 : nib2 st.opcode = y)
    (hn1 : nib3 st.opcode = n) (hx15 : x ≠ 15) (hy15 : y ≠ 15)
    (hxr : st.V x % 64 + 7 < 64) (hyr : st.V y % 32 + n ≤ 32) (hIr : st.I + n ≤ 4096) :
    ∃ st1 st2, execute st = some st1 ∧ execute st1 = some st2 ∧
      (∀ px py, st2.screen.pixels py px = st.screen.pixels py px) ∧
      (sprFree st.screen.pixels st.memory st.I (st.V x % 64) (st.V y % 32) n = true →
        st2.V 15 = 1) := by
  subst hx1
  subst hy1
  subst hn1
  obtain ⟨c1core, _, _, _, h1V, h1pix, h1VF⟩ :=
    display_spec st (nib1 st.opcode) (nib2 st.opcode) (nib3 st.opcode)
  set st1 := display st (nib1 st.opcode) (nib2 st.opcode) (nib3 st.opcode) with hst1
  have hop1 : st1.opcode = st.opcode := c1core.2.2.1
  have hmem1 : st1.memory = st.memory := c1core.2.2.2.2.2
  have hI1 : st1.I = st.I := c1core.2.1
  have hVX : st1.V (nib1 st.opcode) = st.V (nib1 st.opcode) := h1V _ hx15
  have hVY : st1.V (nib2 st.opcode) = st.V (nib2 st.opcode) := h1V _ hy15
  have hD1 : nib0 st1.opcode = 0xD := by rw [hop1]; exact hD
  have he2 : execute st1 =
      some (display st1 (nib1 st.opcode) (nib2 st.opcode) (nib3 st.opcode)) := by
    rw [execute_draw st1 hD1, hop1]
  obtain ⟨_, _, _, _, _, h2pix, h2VF⟩ :=
    display_spec st1 (nib1 st.opcode) (nib2 st.opcode) (nib3 st.opcode)
  refine ⟨st1, display st1 (nib1 st.opcode) (nib2 st.opcode) (nib3 st.opcode),
    execute_draw st hD, he2, ?_, ?_⟩
  · intro px py
    rw [h2pix px py, hmem1, hI1, hVX, hVY, h1pix px py]
    by_cases hT : sprTouch st.memory st.I (st.V (nib1 st.opcode) % 64)
        (st.V (nib2 st.opcode) % 32) px py (nib3 st.opcode) = true
    · rw [if_pos hT, if_pos hT, xor_one_cancel]
    · rw [if_neg hT, if_neg hT]
  · intro hfree
    rw [h2VF, hmem1, hI1, hVX, hVY]
    have htog : ∀ r b, r < nib3 st.opcode → b < 8 →
        spriteBit (st.memory (st.I + r)) b = true →
        st1.screen.pixels (st.V (nib2 st.opcode) % 32 + r)
            (st.V (nib1 st.opcode) % 64 + b) =
          Nat.xor (st.screen.pixels (st.V (nib2 st.opcode) % 32 + r)
            (st.V (nib1 st.opcode) % 64 + b)) 1 := by
      intro r b hr hb hbit
      rw [h1pix, sprTouch_hit st.memory st.I (st.V (nib1 st.opcode) % 64)
            (st.V (nib2 st.opcode) % 32) r b hb hbit (nib3 st.opcode) hr]
      simp
    rw [sprColl_toggle st.screen.pixels st1.screen.pixels st.memory st.I
          (st.V (nib1 st.opcode) % 64) (st.V (nib2 st.opcode) % 32)
          (nib3 st.opcode) htog (nib3 st.opcode) le_rfl,
        hfree]
    simp

/-- Draw state: opcode 0xD011 over an all-zero grid with a single set
    sprite bit. -/
def c8exState : Chip8 :=
  { Chip8.new with
    opcode := 0xD011
    memory := fun a => if a = 0 then 0x80 else 0 }

/-- Witness for C8 at a concrete double draw. -/
theorem c8_witness :
    nib0 c8exState.opcode = 0xD ∧ nib1 c8exState.opcode = 0 ∧
    nib2 c8exState.opcode = 1 ∧ nib3 c8exState.opcode = 1 ∧
    (0 : Nat) ≠ 15 ∧ (1 : Nat) ≠ 15 ∧
    c8exState.V 0 % 64 + 7 < 64 ∧ c8exState.V 1 % 32 + 1 ≤ 32 ∧
    c8exState.I + 1 ≤ 4096 ∧
    (∃ st1 st2, execute c8exState = some st1 ∧ execute st1 = some st2 ∧
      (∀ px py, st2.screen.pixels py px = c8exState.screen.pixels py px) ∧
      (sprFree c8exState.screen.pixels c8exState.memory c8exState.I
          (c8exState.V 0 % 64) (c8exState.V 1 % 32) 1 = true →
        st2.V 15 = 1)) :=
  ⟨by decide, by decide, by decide, by decide, by decide, by decide, by decide,
   by decide, by decide,
   c8_double_draw_restores c8exState 0 1 1 (by decide) (by decide) (by decide)
     (by decide) (by decide) (by decide) (by decide) (by decide) (by decide)⟩

end RustChip8
